import Mathlib

/-!
Verification of the amvc core (Model / View / Controller base classes) and of
the reference todo application built on it.

The TypeScript sources are shallowly embedded:

* BaseView (core/view.ts) keeps a Partial table of event callbacks; it is
  embedded as a dependently typed table mapping each event key to an optional
  callback of that event signature.  onEvent overwrites one entry, getHandler
  reads one entry falling back to an empty function.  Since the callback type
  is abstract here, the empty no-op function that the TypeScript code builds
  inline is passed to getHandler as the argument emptyFunction.
* BaseModel (model.ts) stores a fixed handler table; handle looks the event
  name up and calls the handler.  In JavaScript a lookup miss yields undefined
  and calling it throws a TypeError; the embedding returns an Except value,
  with the miss surfacing as the distinguishable error handlerNotFound.
  Handlers mutate private state, so they are embedded in state-passing style:
  a handler takes its parameters and the current state and returns the new
  state together with its return value.
* The controller render sink is a stored function of type element to void,
  initially a no-op and replaced by onUpdate.  Its observable behaviour is
  embedded as a trace semantics: sinks are identified by numbers, the state
  holds the currently installed sink (none standing for the initial no-op),
  and a run of onUpdate / push steps yields the list of deliveries, each
  delivery recording which sink received which UI node.
* DOM elements are embedded as a pure node datatype.  An event listener that
  the TypeScript code attaches is a closure that calls this.getHandler at the
  moment the interaction fires; such a closure is embedded as a symbolic
  listener tag stored in the node, and a separate firing function interprets
  the tag against the view state current at interaction time.
-/

set_option autoImplicit false

namespace Amvc

/-! ## UI nodes (the HTMLElement values the views build) -/

/-- Listener attached to a form: the submit listener of ToDoListView.render,
whose body calls this.getHandler with the add event at fire time. -/
inductive FormListener where
  | submitAdd
  deriving DecidableEq

/-- Listener attached to a button: the click listener of ToDoView.render, which
captures the id of the rendered item at render time and looks the remove
callback up at fire time. -/
inductive ClickListener where
  | removeClick (id : Nat)
  deriving DecidableEq

/-- Pure embedding of the DOM elements the two views create. -/
inductive UINode where
  | input (ty : String) (placeholder : String)
  | button (ty : Option String) (text : String) (onClick : Option ClickListener)
  | form (children : List UINode) (onSubmit : Option FormListener)
  | ul (children : List UINode)
  | h3 (text : String)
  | p (text : String)
  | div (children : List UINode)

/-! ## BaseView (core/view.ts, lines 53 to 92) -/

/-- Embedding of BaseView: the private field eventHandlers is a Partial table,
one optional callback per event key of the EventMap.  The type family tau
gives each event key its callback signature, as the EventMap does. -/
structure BaseView (kappa : Type) (tau : kappa → Type) where
  eventHandlers : (e : kappa) → Option (tau e)

/-- A freshly constructed BaseView: eventHandlers starts as the empty object. -/
def BaseView.new {kappa : Type} {tau : kappa → Type} : BaseView kappa tau :=
  ⟨fun _ => none⟩

/-- Embedding of BaseView.onEvent: stores the callback under the event key,
overwriting any previous entry. -/
def BaseView.onEvent {kappa : Type} {tau : kappa → Type} [DecidableEq kappa]
    (v : BaseView kappa tau) (event : kappa) (callback : tau event) :
    BaseView kappa tau :=
  ⟨fun x =>
    if h : x = event then some (cast (congrArg tau h.symm) callback)
    else v.eventHandlers x⟩

/-- Embedding of BaseView.getHandler: reads the entry for the event, falling
back to the empty function.  The TypeScript code builds the no-op inline and
casts it to the callback type; since the callback type is abstract here, the
no-op of each signature is supplied as the argument emptyFunction. -/
def BaseView.getHandler {kappa : Type} {tau : kappa → Type}
    (v : BaseView kappa tau) (emptyFunction : (e : kappa) → tau e)
    (event : kappa) : tau event :=
  (v.eventHandlers event).getD (emptyFunction event)

/-- A sequence of onEvent registrations, applied from left to right. -/
def BaseView.applyRegs {kappa : Type} {tau : kappa → Type} [DecidableEq kappa]
    (v : BaseView kappa tau) (rs : List (Sigma tau)) : BaseView kappa tau :=
  rs.foldl (fun w r => w.onEvent r.1 r.2) v

theorem BaseView.eventHandlers_onEvent_self {kappa : Type} {tau : kappa → Type}
    [DecidableEq kappa] (v : BaseView kappa tau) (e : kappa) (c : tau e) :
    (v.onEvent e c).eventHandlers e = some c := by
  simp [BaseView.onEvent]

theorem BaseView.eventHandlers_onEvent_ne {kappa : Type} {tau : kappa → Type}
    [DecidableEq kappa] (v : BaseView kappa tau) (e x : kappa) (c : tau e)
    (h : x ≠ e) : (v.onEvent e c).eventHandlers x = v.eventHandlers x := by
  simp only [BaseView.onEvent]
  rw [dif_neg h]

theorem BaseView.eventHandlers_applyRegs_ne {kappa : Type} {tau : kappa → Type}
    [DecidableEq kappa] (rs : List (Sigma tau)) (v : BaseView kappa tau)
    (e : kappa) (h : ∀ r ∈ rs, r.1 ≠ e) :
    (v.applyRegs rs).eventHandlers e = v.eventHandlers e := by
  induction rs generalizing v with
  | nil => rfl
  | cons r rest ih =>
    have hr : r.1 ≠ e := h r (List.mem_cons_self r rest)
    have hrest : ∀ s ∈ rest, s.1 ≠ e := fun s hs => h s (List.mem_cons_of_mem r hs)
    calc (v.applyRegs (r :: rest)).eventHandlers e
        = ((v.onEvent r.1 r.2).applyRegs rest).eventHandlers e := rfl
      _ = (v.onEvent r.1 r.2).eventHandlers e := ih _ hrest
      _ = v.eventHandlers e := BaseView.eventHandlers_onEvent_ne _ _ _ _ (fun hx => hr hx.symm)

/-! ## BaseModel (model.ts, lines 58 to 92) -/

/-- The runtime fault raised when handle is called with an event name that is
not a key of the handler table: the lookup yields nothing callable and the
call site throws.  -/
inductive ModelError where
  | handlerNotFound
  deriving DecidableEq

/-- Embedding of BaseModel: a fixed handler table set by the constructor and
the private state the handlers mutate.  A handler takes the event parameters
and the current state and returns the updated state with its return value. -/
structure BaseModel (kappa pi rho sigma : Type) where
  handlers : List (kappa × (pi → sigma → sigma × rho))
  state : sigma

/-- Embedding of BaseModel.handle: looks the event name up in the handler
table and invokes the handler with the given parameters.  A miss is the
handlerNotFound fault (in JavaScript, calling the undefined lookup result
throws a TypeError that propagates to the caller). -/
def BaseModel.handle {kappa pi rho sigma : Type} [BEq kappa]
    (m : BaseModel kappa pi rho sigma) (event : kappa) (params : pi) :
    Except ModelError (sigma × rho) :=
  match m.handlers.lookup event with
  | some h => .ok (h params m.state)
  | none => .error .handlerNotFound

/-! ## ToDoListModel (todo-list-model.ts) -/

/-- The todo item record of the example application (lib/todo-item). -/
structure ToDoItem where
  id : Nat
  name : String
  description : String
  completed : Bool
  deriving DecidableEq

/-- The private state of ToDoListModel: the id counter lastId (initially 0)
and the todo list (initially empty). -/
structure ToDoListState where
  lastId : Nat
  todos : List ToDoItem
  deriving DecidableEq

/-- Embedding of the private method add: pushes a new item carrying the
current lastId and post-increments the counter. -/
def ToDoListState.add (s : ToDoListState) (name : String) : ToDoListState :=
  { lastId := s.lastId + 1
    todos := s.todos ++ [{ id := s.lastId, name := name, description := "Default", completed := false }] }

/-- Embedding of the private method remove: keeps the todos whose id differs
from the given one. -/
def ToDoListState.remove (s : ToDoListState) (id : Nat) : ToDoListState :=
  { s with todos := s.todos.filter (fun todo => todo.id != id) }

/-- Embedding of the private method clear: empties the todo list. -/
def ToDoListState.clear (s : ToDoListState) : ToDoListState :=
  { s with todos := [] }

/-- Parameters of the ToDoListModelEvents handlers, as one sum: the add
handler receives a name, the remove handler an id, the clear handler
nothing. -/
inductive ToDoParam where
  | name (s : String)
  | id (n : Nat)
  | unit
  deriving DecidableEq

/-- The handler table the ToDoListModel constructor passes to super.  The
TypeScript type system guarantees each handler is only ever applied to the
parameter shape of its own event, so the remaining shapes of the sum are
unreachable; they are mapped to the identity on the state. -/
def toDoListHandlers : List (String × (ToDoParam → ToDoListState → ToDoListState × Unit)) :=
  [("add", fun p s => match p with
      | .name n => (s.add n, ())
      | _ => (s, ())),
   ("remove", fun p s => match p with
      | .id n => (s.remove n, ())
      | _ => (s, ())),
   ("clear", fun _ s => (s.clear, ()))]

/-- A ToDoListModel over a given private state: the BaseModel instance whose
handler table is the one fixed by the constructor. -/
def ToDoListModel (s : ToDoListState) : BaseModel String ToDoParam Unit ToDoListState :=
  ⟨toDoListHandlers, s⟩

/-- A freshly constructed ToDoListModel: counter 0, empty list. -/
def ToDoListModel.new : BaseModel String ToDoParam Unit ToDoListState :=
  ToDoListModel ⟨0, []⟩

/-- Embedding of ToDoListModel.fetchData: resolves to the current todo list
and mutates nothing (the async wrapper is embedded as the resolved value). -/
def ToDoListModel.fetchData (m : BaseModel String ToDoParam Unit ToDoListState) :
    List ToDoItem := m.state.todos

/-- Restriction of fetched items to the fields id and name. -/
def projItems (l : List ToDoItem) : List (Nat × String) :=
  l.map (fun t => (t.id, t.name))

/-- Invariant of the ToDoListModel state: the item ids, read in list order,
are strictly increasing (hence pairwise distinct) and all below lastId. -/
def ToDoListState.Inv (s : ToDoListState) : Prop :=
  (s.todos.map ToDoItem.id).Pairwise (· < ·) ∧ ∀ t ∈ s.todos, t.id < s.lastId

instance (s : ToDoListState) : Decidable s.Inv := by
  unfold ToDoListState.Inv; infer_instance

/-! ## ToDoView (components/view-components/todo-view.ts) -/

/-- Embedding of ToDoView.render: a pure function of the rendered item.  The
click listener of the remove button captures the id of the item at render
time; the lookup of the remove callback is deferred to fire time and is
therefore a symbolic listener tag in the node. -/
def ToDoView.render (data : ToDoItem) : UINode :=
  .div [.h3 data.name, .p data.description,
        .button none "Remove" (some (.removeClick data.id))]

/-! ## ToDoListView (components/todo-list/todo-list-view.ts) -/

/-- The event keys of ToDoListViewEvents. -/
inductive ListEvt where
  | add
  | remove
  deriving DecidableEq

/-- The callback signatures of ToDoListViewEvents.  The callbacks return void
in TypeScript; the embedding keeps the return type rho abstract so that which
callback ran stays observable. -/
def ListSig (rho : Type) : ListEvt → Type
  | .add => String → rho
  | .remove => Nat → rho

/-- The empty callback of each ToDoListViewEvents signature, standing for the
no-op function getHandler builds when no callback is registered. -/
def listNoOp (rho : Type) [Inhabited rho] : (e : ListEvt) → ListSig rho e
  | .add => fun _ => default
  | .remove => fun _ => default

/-- The event keys of the child view interface TodoItemViewLike. -/
inductive ChildEvt where
  | remove
  deriving DecidableEq

/-- The value ToDoListView.render registers on the child view: the closure
that forwards an id to this.getHandler with the remove event of the list
view, read at fire time.  The closure is kept symbolic because its meaning
depends on the list view state current when it fires. -/
inductive ChildCb where
  | delegateRemove
  deriving DecidableEq

/-- Callback table signature of the child view as ToDoListView uses it. -/
def ChildSig : ChildEvt → Type := fun _ => ChildCb

/-- Embedding of a ToDoListView object: its own BaseView callback table and
the child view toDoItemView received by the constructor (of which only the
callback table is relevant to the embedded operations). -/
structure ToDoListView (rho : Type) where
  base : BaseView ListEvt (ListSig rho)
  toDoItemView : BaseView ChildEvt ChildSig

/-- Embedding of ToDoListView.render: builds the input, the submit button and
the form carrying the submit listener, renders one child node per item into
the list, re-registers the remove delegation on the child view, and returns
the container.  The submit listener body defers the lookup of the add
callback to fire time, so it is a symbolic tag in the node. -/
def ToDoListView.render {rho : Type} (v : ToDoListView rho) (data : List ToDoItem) :
    UINode × ToDoListView rho :=
  let input := UINode.input "text" "Enter a new task"
  let submitButton := UINode.button (some "submit") "Add" none
  let form := UINode.form [input, submitButton] (some .submitAdd)
  let list := UINode.ul (data.map ToDoView.render)
  let v' : ToDoListView rho :=
    { v with toDoItemView := v.toDoItemView.onEvent .remove .delegateRemove }
  (UINode.div [form, list], v')

/-- The submit listener stored in a rendered container node, when present. -/
def UINode.submitListener : UINode → Option FormListener
  | .div (.form _ l :: _) => l
  | _ => none

/-- Firing the submit listener of a rendered node against the view state
current at interaction time: the listener body reads the add callback through
getHandler at that moment and applies it to the input value. -/
def ToDoListView.fireSubmit {rho : Type} [Inhabited rho] (node : UINode)
    (cur : ToDoListView rho) (value : String) : Option rho :=
  node.submitListener.map (fun spec =>
    match spec with
    | .submitAdd => cur.base.getHandler (listNoOp rho) .add value)

/-! ## BaseController (core/controller.ts, lines 39 to 60) -/

/-- Observable state of a BaseController: the currently installed render
sink, with none standing for the initial no-op sink. -/
structure ControllerState where
  sink : Option Nat
  deriving DecidableEq

/-- A freshly constructed BaseController: the render field is the no-op. -/
def BaseController.new : ControllerState := ⟨none⟩

/-- One observable step of a controller: onUpdate installs a sink (identified
by a number), pushRender calls the stored render function on a produced UI
node.  -/
inductive ControllerStep (nu : Type) where
  | onUpdate (sinkId : Nat)
  | pushRender (node : nu)
  deriving DecidableEq

/-- Semantics of one step: onUpdate replaces the sink and delivers nothing;
pushRender delivers the node to the installed sink, or to nobody while the
initial no-op is installed. -/
def controllerStep {nu : Type} (st : ControllerState) :
    ControllerStep nu → ControllerState × List (Nat × nu)
  | .onUpdate i => (⟨some i⟩, [])
  | .pushRender n =>
    (st, match st.sink with
         | some i => [(i, n)]
         | none => [])

/-- Semantics of a run: executes the steps in order from a starting state,
returning the final state and the concatenated delivery log. -/
def controllerRun {nu : Type} (st : ControllerState) :
    List (ControllerStep nu) → ControllerState × List (Nat × nu)
  | [] => (st, [])
  | s :: rest =>
    let out := controllerStep st s
    let outs := controllerRun out.1 rest
    (outs.1, out.2 ++ outs.2)

theorem controllerRun_append {nu : Type} (st : ControllerState)
    (a b : List (ControllerStep nu)) :
    controllerRun st (a ++ b) =
      ((controllerRun (controllerRun st a).1 b).1,
       (controllerRun st a).2 ++ (controllerRun (controllerRun st a).1 b).2) := by
  induction a generalizing st with
  | nil => simp [controllerRun]
  | cons s rest ih =>
    simp [controllerRun, ih (controllerStep st s).1, List.append_assoc]

/-- A delivery can only name a sink that was the starting sink or was
installed by some onUpdate step of the run. -/
theorem controllerRun_mem_sink {nu : Type} (steps : List (ControllerStep nu))
    (st : ControllerState) (i : Nat) (n : nu)
    (h : (i, n) ∈ (controllerRun st steps).2) :
    st.sink = some i ∨ (ControllerStep.onUpdate i : ControllerStep nu) ∈ steps := by
  induction steps generalizing st with
  | nil => simp [controllerRun] at h
  | cons s rest ih =>
    simp only [controllerRun, List.mem_append] at h
    cases h with
    | inl hout =>
      cases s with
      | onUpdate j => simp [controllerStep] at hout
      | pushRender m =>
        cases hsink : st.sink with
        | none => simp [controllerStep, hsink] at hout
        | some j =>
          simp [controllerStep, hsink] at hout
          exact .inl (by simp [hout])
    | inr hrest =>
      cases s with
      | onUpdate j =>
        rcases ih _ hrest with hs | hmem
        · have : j = i := by simpa [controllerStep] using hs
          exact .inr (by simp [this])
        · exact .inr (List.mem_cons_of_mem _ hmem)
      | pushRender m =>
        rcases ih _ hrest with hs | hmem
        · exact .inl (by simpa [controllerStep] using hs)
        · exact .inr (List.mem_cons_of_mem _ hmem)

/-! ## ToDoListController (todo-list-controller.ts) -/

/-- Embedding of a ToDoListController object: the inherited render sink state
and the model and view received by the constructor. -/
structure ToDoListController (rho : Type) where
  ctrl : ControllerState
  model : ToDoListState
  view : ToDoListView rho

/-- Embedding of ToDoListController.run: renders the view with the empty list
as the default data set and pushes the resulting node once through the
currently installed sink. -/
def ToDoListController.run {rho : Type} (c : ToDoListController rho) :
    ToDoListController rho × List (Nat × UINode) :=
  let rendered := c.view.render []
  ({ c with view := rendered.2 },
   match c.ctrl.sink with
   | some i => [(i, rendered.1)]
   | none => [])

/-! ## Invariant lemmas for the ToDoListModel state -/

theorem ToDoListState.add_inv {s : ToDoListState} (h : s.Inv) (n : String) :
    (s.add n).Inv := by
  obtain ⟨hp, hb⟩ := h
  constructor
  · simp only [ToDoListState.add, List.map_append, List.map_cons, List.map_nil]
    rw [List.pairwise_append]
    refine ⟨hp, List.pairwise_singleton _ _, ?_⟩
    intro a ha b hb'
    simp only [List.mem_singleton] at hb'
    subst hb'
    simp only [List.mem_map] at ha
    obtain ⟨t, ht, rfl⟩ := ha
    exact hb t ht
  · intro t ht
    simp only [ToDoListState.add, List.mem_append, List.mem_singleton] at ht
    cases ht with
    | inl h1 => exact Nat.lt_succ_of_lt (hb t h1)
    | inr h2 => subst h2; exact Nat.lt_succ_self _

theorem ToDoListState.remove_inv {s : ToDoListState} (h : s.Inv) (i : Nat) :
    (s.remove i).Inv := by
  obtain ⟨hp, hb⟩ := h
  constructor
  · exact hp.sublist ((List.filter_sublist s.todos).map ToDoItem.id)
  · intro t ht
    simp only [ToDoListState.remove, List.mem_filter] at ht
    exact hb t ht.1

theorem ToDoListState.clear_inv {s : ToDoListState} (_h : s.Inv) :
    (s.clear).Inv := by
  refine ⟨by simp [ToDoListState.clear], ?_⟩
  intro t ht
  simp [ToDoListState.clear] at ht

/-! ## Claim theorems: the Model side -/

/-- C2: calling handle with an event name that is not a key of the handler
table surfaces the distinguishable handlerNotFound fault, which propagates to
the caller through the result; the call never produces a success value. -/
theorem handle_unknown_event_fault {kappa pi rho sigma : Type} [BEq kappa]
    (m : BaseModel kappa pi rho sigma) (e : kappa) (p : pi)
    (h : m.handlers.lookup e = none) :
    m.handle e p = .error .handlerNotFound ∧ ∀ out, m.handle e p ≠ .ok out := by
  constructor
  · simp [BaseModel.handle, h]
  · intro out
    simp [BaseModel.handle, h]

theorem handle_unknown_event_fault_witness :
    (ToDoListModel.new).handle "complete" .unit = .error .handlerNotFound ∧
      ∀ out, (ToDoListModel.new).handle "complete" .unit ≠ .ok out :=
  handle_unknown_event_fault ToDoListModel.new "complete" ToDoParam.unit rfl

/-- C4: when the event name is a key of the handler table, handle invokes the
stored handler with exactly the given parameters and the current private
state, and returns the result of the handler unchanged. -/
theorem handle_invokes_stored_handler {kappa pi rho sigma : Type} [BEq kappa]
    (m : BaseModel kappa pi rho sigma) (e : kappa) (p : pi)
    (h : pi → sigma → sigma × rho) (hl : m.handlers.lookup e = some h) :
    m.handle e p = .ok (h p m.state) := by
  simp [BaseModel.handle, hl]

theorem handle_invokes_stored_handler_witness :
    (ToDoListModel.new).handle "add" (.name "buy milk") =
      .ok (⟨1, [⟨0, "buy milk", "Default", false⟩]⟩, ()) :=
  handle_invokes_stored_handler ToDoListModel.new "add" (ToDoParam.name "buy milk") _ rfl

/-- C5: the reference scenario on a freshly constructed ToDoListModel: adding
buy milk then walk dog, removing id 0 and clearing, with the fetched items
restricted to id and name after each step. -/
theorem toDoListModel_end_to_end :
    (ToDoListModel.new).handle "add" (.name "buy milk") =
        .ok (⟨1, [⟨0, "buy milk", "Default", false⟩]⟩, ())
  ∧ projItems (ToDoListModel.fetchData (ToDoListModel ⟨1, [⟨0, "buy milk", "Default", false⟩]⟩)) =
        [(0, "buy milk")]
  ∧ (ToDoListModel ⟨1, [⟨0, "buy milk", "Default", false⟩]⟩).handle "add" (.name "walk dog") =
        .ok (⟨2, [⟨0, "buy milk", "Default", false⟩, ⟨1, "walk dog", "Default", false⟩]⟩, ())
  ∧ projItems (ToDoListModel.fetchData (ToDoListModel
        ⟨2, [⟨0, "buy milk", "Default", false⟩, ⟨1, "walk dog", "Default", false⟩]⟩)) =
        [(0, "buy milk"), (1, "walk dog")]
  ∧ (ToDoListModel ⟨2, [⟨0, "buy milk", "Default", false⟩, ⟨1, "walk dog", "Default", false⟩]⟩).handle
        "remove" (.id 0) = .ok (⟨2, [⟨1, "walk dog", "Default", false⟩]⟩, ())
  ∧ projItems (ToDoListModel.fetchData (ToDoListModel ⟨2, [⟨1, "walk dog", "Default", false⟩]⟩)) =
        [(1, "walk dog")]
  ∧ (ToDoListModel ⟨2, [⟨1, "walk dog", "Default", false⟩]⟩).handle "clear" .unit =
        .ok (⟨2, []⟩, ())
  ∧ projItems (ToDoListModel.fetchData (ToDoListModel ⟨2, []⟩)) = [] :=
  ⟨rfl, rfl, rfl, rfl, rfl, rfl, rfl, rfl⟩

/-- C9: the ToDoListModel invariant (item ids strictly increasing in list
order, hence pairwise distinct, and all below the lastId counter) is
preserved by the add, remove and clear events dispatched through handle;
fetchData reads the list without touching the state; and under the invariant
no id occurs twice in the list. -/
theorem toDoListModel_inv_preserved (s : ToDoListState) (h : s.Inv) :
    (∀ n s' u, (ToDoListModel s).handle "add" (.name n) = .ok (s', u) → s'.Inv)
  ∧ (∀ i s' u, (ToDoListModel s).handle "remove" (.id i) = .ok (s', u) → s'.Inv)
  ∧ (∀ s' u, (ToDoListModel s).handle "clear" .unit = .ok (s', u) → s'.Inv)
  ∧ ToDoListModel.fetchData (ToDoListModel s) = s.todos
  ∧ (s.todos.map ToDoItem.id).Nodup := by
  refine ⟨?_, ?_, ?_, rfl, h.1.imp Nat.ne_of_lt⟩
  · intro n s' u hEq
    have h' : Except.ok (ε := ModelError) (s.add n, ()) = .ok (s', u) := hEq
    injection h' with h''
    injection h'' with h1 h2
    exact h1 ▸ ToDoListState.add_inv h n
  · intro i s' u hEq
    have h' : Except.ok (ε := ModelError) (s.remove i, ()) = .ok (s', u) := hEq
    injection h' with h''
    injection h'' with h1 h2
    exact h1 ▸ ToDoListState.remove_inv h i
  · intro s' u hEq
    have h' : Except.ok (ε := ModelError) (s.clear, ()) = .ok (s', u) := hEq
    injection h' with h''
    injection h'' with h1 h2
    exact h1 ▸ ToDoListState.clear_inv h

theorem toDoListModel_inv_preserved_witness :
    (ToDoListState.mk 2 [⟨0, "buy milk", "Default", false⟩,
      ⟨1, "walk dog", "Default", false⟩]).Inv :=
  (toDoListModel_inv_preserved ⟨1, [⟨0, "buy milk", "Default", false⟩]⟩
    (by decide)).1 "walk dog" _ () rfl

/-- C10: dispatching remove with an id carried by no current item succeeds
(no fault) and leaves the observable state unchanged: the same state comes
back, so the id counter is untouched and fetchData yields the same list. -/
theorem remove_absent_id_noop (s : ToDoListState) (i : Nat)
    (h : ∀ t ∈ s.todos, t.id ≠ i) :
    (ToDoListModel s).handle "remove" (.id i) = .ok (s, ()) ∧
      ToDoListModel.fetchData (ToDoListModel s) = s.todos := by
  refine ⟨?_, rfl⟩
  have hfilter : s.todos.filter (fun todo => todo.id != i) = s.todos :=
    List.filter_eq_self.mpr (fun t ht => by simpa using h t ht)
  have hrm : s.remove i = s := by
    unfold ToDoListState.remove
    rw [hfilter]
  calc (ToDoListModel s).handle "remove" (.id i) = .ok (s.remove i, ()) := rfl
    _ = .ok (s, ()) := by rw [hrm]

/-! ## Claim theorems: the View side -/

/-- Registering a callback and then applying further registrations for other
event names leaves the lookup of the registered event at that callback. -/
theorem BaseView.getHandler_applyRegs_onEvent {kappa : Type} {tau : kappa → Type}
    [DecidableEq kappa] (emptyFunction : (e : kappa) → tau e)
    (w : BaseView kappa tau) (e : kappa) (rs : List (Sigma tau))
    (hrs : ∀ r ∈ rs, r.1 ≠ e) (c : tau e) :
    ((w.onEvent e c).applyRegs rs).getHandler emptyFunction e = c := by
  unfold BaseView.getHandler
  rw [BaseView.eventHandlers_applyRegs_ne rs _ e hrs,
    BaseView.eventHandlers_onEvent_self]
  rfl

/-- C1: the latest registered callback wins.  Generically over BaseView:
after registering c1 and then c2 for the same event, followed by any later
registrations for other event names, getHandler returns c2, and right after
onEvent the lookup returns exactly the registered callback.  Concretely for
ToDoListView: firing the submit listener of a node produced by ANY earlier
render resolves the add callback from the view state current at interaction
time, so after the registrations above it invokes c2 on the input value and
never the stale c1. -/
theorem latest_callback_wins {kappa : Type} {tau : kappa → Type} [DecidableEq kappa]
    {rho : Type} [Inhabited rho] (emptyFunction : (e : kappa) → tau e)
    (v : BaseView kappa tau) (e : kappa) (c1 c2 : tau e) :
    (∀ rs : List (Sigma tau), (∀ r ∈ rs, r.1 ≠ e) →
        (((v.onEvent e c1).onEvent e c2).applyRegs rs).getHandler emptyFunction e = c2)
    ∧ (∀ c : tau e, (v.onEvent e c).getHandler emptyFunction e = c)
    ∧ (∀ (vOld cur : ToDoListView rho) (dataOld : List ToDoItem) (value : String),
        ToDoListView.fireSubmit ((vOld.render dataOld).1) cur value =
          some (cur.base.getHandler (listNoOp rho) .add value))
    ∧ (∀ (b0 : BaseView ListEvt (ListSig rho)) (child : BaseView ChildEvt ChildSig)
        (vOld : ToDoListView rho) (dataOld : List ToDoItem) (value : String)
        (d1 d2 : String → rho) (rs : List (Sigma (ListSig rho))),
        (∀ r ∈ rs, r.1 ≠ ListEvt.add) →
        ToDoListView.fireSubmit ((vOld.render dataOld).1)
            ⟨((b0.onEvent .add d1).onEvent .add d2).applyRegs rs, child⟩ value =
          some (d2 value)) := by
  refine ⟨?_, ?_, ?_, ?_⟩
  · intro rs hrs
    exact BaseView.getHandler_applyRegs_onEvent emptyFunction (v.onEvent e c1) e rs hrs c2
  · intro c
    exact BaseView.getHandler_applyRegs_onEvent emptyFunction v e [] (by simp) c
  · intro vOld cur dataOld value
    rfl
  · intro b0 child vOld dataOld value d1 d2 rs hrs
    have hfire : ToDoListView.fireSubmit ((vOld.render dataOld).1)
        ⟨((b0.onEvent .add d1).onEvent .add d2).applyRegs rs, child⟩ value =
        some ((((b0.onEvent .add d1).onEvent .add d2).applyRegs rs).getHandler
          (listNoOp rho) .add value) := rfl
    rw [hfire, BaseView.getHandler_applyRegs_onEvent (listNoOp rho) (b0.onEvent .add d1)
      ListEvt.add rs hrs d2]

theorem latest_callback_wins_witness :
    ToDoListView.fireSubmit
        ((ToDoListView.render (⟨BaseView.new, BaseView.new⟩ : ToDoListView Nat) []).1)
        ⟨(((BaseView.new : BaseView ListEvt (ListSig Nat)).onEvent ListEvt.add
            (fun _ => 0)).onEvent ListEvt.add String.length).applyRegs [],
          BaseView.new⟩ "hi" = some 2 :=
  (latest_callback_wins (listNoOp Nat) (BaseView.new : BaseView ListEvt (ListSig Nat))
      ListEvt.add (fun _ => 0) String.length).2.2.2
    BaseView.new BaseView.new ⟨BaseView.new, BaseView.new⟩ [] "hi"
    (fun _ => 0) String.length [] (by simp)

/-- C3: looking up an event with no registered callback never fails and
returns the empty callback of the matching signature, and invoking the
returned callback emits no effect; the table of a freshly constructed view is
empty, so the same holds right after construction.  Callbacks are
instantiated here as effect-emitting functions so that having no observable
effect is expressible as the empty effect list. -/
theorem unregistered_event_noop {kappa : Type} [DecidableEq kappa]
    {pi : kappa → Type} {eps : Type}
    (v : BaseView kappa (fun e => pi e → List eps)) (e : kappa)
    (h : v.eventHandlers e = none) :
    v.getHandler (fun _ _ => []) e = (fun _ => [])
    ∧ (∀ p, v.getHandler (fun _ _ => []) e p = [])
    ∧ (BaseView.new : BaseView kappa (fun x => pi x → List eps)).eventHandlers e = none
    ∧ (BaseView.new : BaseView kappa (fun x => pi x → List eps)).getHandler
        (fun _ _ => []) e = (fun _ => []) := by
  refine ⟨?_, ?_, rfl, rfl⟩
  · unfold BaseView.getHandler
    rw [h]
    rfl
  · intro p
    unfold BaseView.getHandler
    rw [h]
    rfl

theorem unregistered_event_noop_witness :
    (BaseView.new : BaseView ListEvt (fun _ => String → List Nat)).getHandler
        (fun _ _ => []) ListEvt.add = (fun _ => [])
    ∧ (∀ p, (BaseView.new : BaseView ListEvt (fun _ => String → List Nat)).getHandler
        (fun _ _ => []) ListEvt.add p = [])
    ∧ (BaseView.new : BaseView ListEvt (fun _ => String → List Nat)).eventHandlers
        ListEvt.add = none
    ∧ (BaseView.new : BaseView ListEvt (fun _ => String → List Nat)).getHandler
        (fun _ _ => []) ListEvt.add = (fun _ => []) :=
  unregistered_event_noop BaseView.new ListEvt.add rfl

/-- C8 counterexample: the claim that render never reads or writes stored
callbacks fails on ToDoListView.  Rendering the empty list from a view whose
child table is empty returns a changed view object: the remove delegation has
been registered on the stored callbacks of the child view during render. -/
theorem render_writes_child_callbacks :
    (ToDoListView.render (⟨BaseView.new, BaseView.new⟩ : ToDoListView Unit) []).2 ≠
      (⟨BaseView.new, BaseView.new⟩ : ToDoListView Unit) := by
  intro hEq
  have h2 := congrArg
    (fun w : ToDoListView Unit => w.toDoItemView.eventHandlers ChildEvt.remove) hEq
  simp only [ToDoListView.render, BaseView.eventHandlers_onEvent_self] at h2
  exact Option.noConfusion h2

/-- C8 amended: the UI node render returns is a pure function of the input
data: any two view states render the same data to structurally equal nodes
(in particular an immediate repeated render), and ToDoListView.render
neither reads nor writes its own callback table; ToDoView.render is embedded
as a function of the item alone since the method touches no stored state.
However ToDoListView.render does write the stored callbacks of its child
view, re-registering the remove delegation on toDoItemView at render time. -/
theorem render_pure_function_of_data {rho : Type} (v w : ToDoListView rho)
    (data : List ToDoItem) :
    ((v.render data).1 = (w.render data).1)
    ∧ ((v.render data).1 = (((v.render data).2).render data).1)
    ∧ ((v.render data).2.base = v.base)
    ∧ ((v.render data).2.toDoItemView =
        v.toDoItemView.onEvent ChildEvt.remove ChildCb.delegateRemove) :=
  ⟨rfl, rfl, rfl, rfl⟩

/-! ## Claim theorems: the Controller side -/

/-- C6: the render sink contract of BaseController: a freshly constructed
controller has the no-op sink, which discards pushed nodes; onUpdate
replaces the sink, emits nothing and changes nothing else; the last
registration wins; and a newly installed sink is never invoked with a node
pushed before its registration: every delivery it receives arises from the
steps that follow the registration. -/
theorem controller_sink_contract {nu : Type} (st : ControllerState)
    (steps pre post : List (ControllerStep nu)) (i : Nat) (n m : nu) :
    (controllerStep BaseController.new (ControllerStep.pushRender n) =
        (BaseController.new, []))
    ∧ ((controllerRun st (steps ++ [ControllerStep.onUpdate i])).1 = ⟨some i⟩)
    ∧ (controllerStep st (ControllerStep.onUpdate i : ControllerStep nu) = (⟨some i⟩, []))
    ∧ ((ControllerStep.onUpdate i : ControllerStep nu) ∉ pre →
        (∀ n0 : nu, (i, n0) ∉ (controllerRun BaseController.new pre).2)
        ∧ ((i, m) ∈ (controllerRun BaseController.new
              (pre ++ ControllerStep.onUpdate i :: post)).2 →
            (i, m) ∈ (controllerRun (controllerRun BaseController.new pre).1
              (ControllerStep.onUpdate i :: post)).2)) := by
  refine ⟨rfl, ?_, rfl, ?_⟩
  · rw [controllerRun_append]
    simp [controllerRun, controllerStep]
  · intro hpre
    have hnot : ∀ n0 : nu, (i, n0) ∉ (controllerRun BaseController.new pre).2 := by
      intro n0 hmem
      rcases controllerRun_mem_sink pre BaseController.new i n0 hmem with hs | hm
      · exact Option.noConfusion hs
      · exact hpre hm
    refine ⟨hnot, ?_⟩
    intro hmem
    rw [controllerRun_append] at hmem
    rcases List.mem_append.mp hmem with h1 | h2
    · exact absurd h1 (hnot m)
    · exact h2

theorem controller_sink_contract_witness :
    (1, 9) ∈ (controllerRun (controllerRun BaseController.new
        [ControllerStep.onUpdate 0, ControllerStep.pushRender (7 : Nat)]).1
      (ControllerStep.onUpdate 1 :: [ControllerStep.pushRender 9])).2 :=
  ((controller_sink_contract ⟨none⟩ []
      [ControllerStep.onUpdate 0, ControllerStep.pushRender 7]
      [ControllerStep.pushRender 9] 1 5 9).2.2.2 (by decide)).2 (by decide)

/-- C7: ToDoListController.run renders the view with the initial, empty data
set and pushes the resulting UI node through the currently installed update
sink exactly once; it performs no Model mutation and leaves the sink as it
was. -/
theorem run_initial_render {rho : Type} (c : ToDoListController rho) (i : Nat)
    (h : c.ctrl.sink = some i) :
    (c.run).2 = [(i, (c.view.render []).1)]
    ∧ (c.run).1.model = c.model
    ∧ (c.run).1.ctrl = c.ctrl := by
  refine ⟨?_, rfl, rfl⟩
  simp [ToDoListController.run, h]

theorem run_initial_render_witness :
    ((⟨⟨some 0⟩, ⟨0, []⟩, ⟨BaseView.new, BaseView.new⟩⟩ : ToDoListController Unit).run).2 =
        [(0, ((⟨BaseView.new, BaseView.new⟩ : ToDoListView Unit).render []).1)]
    ∧ ((⟨⟨some 0⟩, ⟨0, []⟩, ⟨BaseView.new, BaseView.new⟩⟩ : ToDoListController Unit).run).1.model =
        (⟨⟨some 0⟩, ⟨0, []⟩, ⟨BaseView.new, BaseView.new⟩⟩ : ToDoListController Unit).model
    ∧ ((⟨⟨some 0⟩, ⟨0, []⟩, ⟨BaseView.new, BaseView.new⟩⟩ : ToDoListController Unit).run).1.ctrl =
        (⟨⟨some 0⟩, ⟨0, []⟩, ⟨BaseView.new, BaseView.new⟩⟩ : ToDoListController Unit).ctrl :=
  run_initial_render _ 0 rfl

theorem remove_absent_id_noop_witness :
    (ToDoListModel ⟨2, [⟨1, "walk dog", "Default", false⟩]⟩).handle "remove" (.id 0) =
        .ok (⟨2, [⟨1, "walk dog", "Default", false⟩]⟩, ()) ∧
      ToDoListModel.fetchData (ToDoListModel ⟨2, [⟨1, "walk dog", "Default", false⟩]⟩) =
        [⟨1, "walk dog", "Default", false⟩] :=
  remove_absent_id_noop _ 0 (by decide)

end Amvc
